import Mathlib

/-!
Verification of the hammer-tech artifact-selection layer (filters.py and
hammer_tech.py) against its natural-language specification.

The data model and all filter functions are shallow embeddings of the
Python source.  Python `None` becomes `Option.none`; a Python function
that can raise (`raise ValueError`, a failing `assert`,
`subprocess.check_call`) returns `Except String`.
-/

/-- One entry of a library's `provides` list (external data model,
`schema.json`): carries an optional library-type classification. -/
structure ProvideEntry where
  lib_type : Option String := none
deriving DecidableEq, Repr

/-- The nested TLU+ record of a library (external data model): optional
max-capacitance and min-capacitance file paths. -/
structure TLUPlusFiles where
  max_cap : Option String := none
  min_cap : Option String := none
deriving DecidableEq, Repr

/-- A library record (external data model, consumed read-only by
filters.py).  Every file field is optional; `none` is Python `None`. -/
structure Library where
  ccs_library_file : Option String := none
  nldm_library_file : Option String := none
  ccs_liberty_file : Option String := none
  nldm_liberty_file : Option String := none
  ecsm_liberty_file : Option String := none
  qrc_techfile : Option String := none
  verilog_synth : Option String := none
  lef_file : Option String := none
  gds_file : Option String := none
  spice_file : Option String := none
  milkyway_lib_in_dir : Option String := none
  milkyway_techfile : Option String := none
  tluplus_files : Option TLUPlusFiles := none
  provides : Option (List ProvideEntry) := none
deriving DecidableEq, Repr

/-- Modelled from the spec: the Artifact Descriptor (`LibraryFilter`,
whose defining module `library_filter.py` is not part of the snapshot;
only its constructor calls in filters.py are).  Fields follow spec §3:
name, description, file-vs-directory flag, qualification predicate
(defaulting to true), extraction rule (fallible, since extraction
functions in filters.py may `assert`), optional ordering key, and
post-selection validators. -/
structure LibraryFilter where
  name : String
  description : String
  is_file : Bool
  filter_func : Library → Bool := fun _ => true
  extraction_func : Library → Except String (List String)
  sort_func : Option (Library → Nat) := none
  extra_post_filter_funcs : List (List String → Except String (List String)) := []

/-- `create_nonempty_check` (filters.py): build a validator that rejects
an empty list with an error naming the artifact category and passes any
non-empty list through unchanged. -/
def create_nonempty_check (description : String) : List String → Except String (List String) :=
  fun l =>
    if l.length = 0 then
      Except.error ("Must have at least one " ++ description)
    else
      Except.ok l

/-- Extraction function of `timing_db_filter`: choose ccs if available,
if not, nldm. -/
def timing_db_extraction_func (lib : Library) : Except String (List String) :=
  match lib.ccs_library_file with
  | some ccs => Except.ok [ccs]
  | none =>
    match lib.nldm_library_file with
    | some nldm => Except.ok [nldm]
    | none => Except.ok []

/-- `timing_db_filter` (filters.py): Synopsys timing libraries (.db),
prefers CCS, falls back to NLDM. -/
def timing_db_filter : LibraryFilter where
  name := "timing_db"
  description := "CCS/NLDM timing lib (Synopsys .db)"
  is_file := true
  extraction_func := timing_db_extraction_func

/-- Extraction function of the deprecated `liberty_lib_filter`: choose
ccs if available, if not, nldm. -/
def liberty_lib_extraction_func (lib : Library) : Except String (List String) :=
  match lib.ccs_liberty_file with
  | some ccs => Except.ok [ccs]
  | none =>
    match lib.nldm_liberty_file with
    | some nldm => Except.ok [nldm]
    | none => Except.ok []

/-- `liberty_lib_filter` (filters.py): deprecated alias of
`timing_lib_filter`.  Accessing the property first emits
`warnings.warn("Use timing_lib_filter instead", DeprecationWarning)`;
the non-fatal warning side effect is modelled as the second component
of the returned pair. -/
def liberty_lib_filter : LibraryFilter × List String :=
  ({ name := "timing_lib"
     description := "CCS/NLDM timing lib (ASCII .lib)"
     is_file := true
     extraction_func := liberty_lib_extraction_func },
   ["Use timing_lib_filter instead"])

/-- Extraction function of `timing_lib_filter`: choose ccs if available,
if not, nldm. -/
def timing_lib_extraction_func (lib : Library) : Except String (List String) :=
  match lib.ccs_liberty_file with
  | some ccs => Except.ok [ccs]
  | none =>
    match lib.nldm_liberty_file with
    | some nldm => Except.ok [nldm]
    | none => Except.ok []

/-- `timing_lib_filter` (filters.py): ASCII .lib timing libraries,
prefers CCS, falls back to NLDM. -/
def timing_lib_filter : LibraryFilter where
  name := "timing_lib"
  description := "CCS/NLDM timing lib (ASCII .lib)"
  is_file := true
  extraction_func := timing_lib_extraction_func

/-- Extraction function of `timing_lib_with_ecsm_filter`: prefer ECSM,
then CCS, then NLDM. -/
def timing_lib_with_ecsm_extraction_func (lib : Library) : Except String (List String) :=
  match lib.ecsm_liberty_file with
  | some ecsm => Except.ok [ecsm]
  | none =>
    match lib.ccs_liberty_file with
    | some ccs => Except.ok [ccs]
    | none =>
      match lib.nldm_liberty_file with
      | some nldm => Except.ok [nldm]
      | none => Except.ok []

/-- `timing_lib_with_ecsm_filter` (filters.py). -/
def timing_lib_with_ecsm_filter : LibraryFilter where
  name := "timing_lib_with_ecsm"
  description := "ECSM/CCS/NLDM timing lib (liberty ASCII .lib)"
  is_file := true
  extraction_func := timing_lib_with_ecsm_extraction_func

/-- Extraction function of `qrc_tech_filter`. -/
def qrc_extraction_func (lib : Library) : Except String (List String) :=
  match lib.qrc_techfile with
  | some f => Except.ok [f]
  | none => Except.ok []

/-- `qrc_tech_filter` (filters.py). -/
def qrc_tech_filter : LibraryFilter where
  name := "qrc"
  description := "qrc RC corner tech file"
  is_file := true
  extraction_func := qrc_extraction_func

/-- Extraction function of `verilog_synth_filter`. -/
def verilog_synth_extraction_func (lib : Library) : Except String (List String) :=
  match lib.verilog_synth with
  | some f => Except.ok [f]
  | none => Except.ok []

/-- `verilog_synth_filter` (filters.py). -/
def verilog_synth_filter : LibraryFilter where
  name := "verilog_synth"
  description := "Synthesizable Verilog wrappers"
  is_file := true
  extraction_func := verilog_synth_extraction_func

/-- Qualification predicate of `lef_filter`: `lib.lef_file is not None`. -/
def lef_filter_func (lib : Library) : Bool :=
  lib.lef_file.isSome

/-- Extraction function of `lef_filter`: `assert lib.lef_file is not
None; return [lib.lef_file]`.  The assertion failure is the error case. -/
def lef_extraction_func (lib : Library) : Except String (List String) :=
  match lib.lef_file with
  | some f => Except.ok [f]
  | none => Except.error "AssertionError: lib.lef_file is not None"

/-- The loop body of `lef_filter`'s `sort_func`: scan the provides list,
returning 0 at the first entry whose lib_type equals "technology",
and 100 if the scan falls through. -/
def lef_sort_loop : List ProvideEntry → Nat
  | [] => 100
  | p :: rest =>
    if p.lib_type = some "technology" then 0 else lef_sort_loop rest

/-- `sort_func` of `lef_filter` (filters.py): rank 0 when a provides
entry is typed "technology" (put the technology LEF in front), rank 100
otherwise (put it behind). -/
def lef_sort_func (lib : Library) : Nat :=
  match lib.provides with
  | some provides => lef_sort_loop provides
  | none => 100

/-- `lef_filter` (filters.py): LEF files for physical layout, with a
qualification predicate, an asserting extraction function and an
ordering key. -/
def lef_filter : LibraryFilter where
  name := "lef"
  description := "LEF physical design layout library"
  is_file := true
  filter_func := lef_filter_func
  extraction_func := lef_extraction_func
  sort_func := some lef_sort_func

/-- Qualification predicate of `gds_filter`. -/
def gds_filter_func (lib : Library) : Bool :=
  lib.gds_file.isSome

/-- Extraction function of `gds_filter` (asserting). -/
def gds_extraction_func (lib : Library) : Except String (List String) :=
  match lib.gds_file with
  | some f => Except.ok [f]
  | none => Except.error "AssertionError: lib.gds_file is not None"

/-- `gds_filter` (filters.py). -/
def gds_filter : LibraryFilter where
  name := "gds"
  description := "GDS opaque physical design layout"
  is_file := true
  filter_func := gds_filter_func
  extraction_func := gds_extraction_func

/-- Qualification predicate of `spice_filter`. -/
def spice_filter_func (lib : Library) : Bool :=
  lib.spice_file.isSome

/-- Extraction function of `spice_filter` (asserting). -/
def spice_extraction_func (lib : Library) : Except String (List String) :=
  match lib.spice_file with
  | some f => Except.ok [f]
  | none => Except.error "AssertionError: lib.spice_file is not None"

/-- `spice_filter` (filters.py). -/
def spice_filter : LibraryFilter where
  name := "spice"
  description := "SPICE files"
  is_file := true
  filter_func := spice_filter_func
  extraction_func := spice_extraction_func

/-- Extraction function of `milkyway_techfile_filter`. -/
def select_milkyway_tfs (lib : Library) : Except String (List String) :=
  match lib.milkyway_techfile with
  | some f => Except.ok [f]
  | none => Except.ok []

/-- `milkyway_techfile_filter` (filters.py): Milkyway techfiles, with a
non-empty post-selection check. -/
def milkyway_techfile_filter : LibraryFilter where
  name := "milkyway_tf"
  description := "Milkyway techfile"
  is_file := true
  extraction_func := select_milkyway_tfs
  extra_post_filter_funcs := [create_nonempty_check "Milkyway techfile"]

/-- Extraction function of `tlu_max_cap_filter`. -/
def select_tlu_max_cap (lib : Library) : Except String (List String) :=
  match lib.tluplus_files with
  | some t =>
    match t.max_cap with
    | some f => Except.ok [f]
    | none => Except.ok []
  | none => Except.ok []

/-- `tlu_max_cap_filter` (filters.py). -/
def tlu_max_cap_filter : LibraryFilter where
  name := "tlu_max"
  description := "TLU+ max cap db"
  is_file := true
  extraction_func := select_tlu_max_cap

/-- Extraction function of `tlu_min_cap_filter`. -/
def select_tlu_min_cap (lib : Library) : Except String (List String) :=
  match lib.tluplus_files with
  | some t =>
    match t.min_cap with
    | some f => Except.ok [f]
    | none => Except.ok []
  | none => Except.ok []

/-- `tlu_min_cap_filter` (filters.py). -/
def tlu_min_cap_filter : LibraryFilter where
  name := "tlu_min"
  description := "TLU+ min cap db"
  is_file := true
  extraction_func := select_tlu_min_cap

/-! ### Selection Engine (spec §4.2)

The engine's source module (`library_filter.py` and its caller in
`hammer_tech.py`) is not part of the snapshot, so it is modelled from
the spec. -/

/-- Modelled from the spec: stable insertion of a keyed block into an
already key-sorted list, placing the new block before the first block
whose key is not smaller (ties broken by original position, spec §4.2
step 3). -/
def insertByKey (x : Nat × List String) : List (Nat × List String) → List (Nat × List String)
  | [] => [x]
  | y :: ys => if x.1 ≤ y.1 then x :: y :: ys else y :: insertByKey x ys

/-- Modelled from the spec: stable sort of keyed blocks by ascending
key (spec §4.2 step 3). -/
def sortByKey : List (Nat × List String) → List (Nat × List String)
  | [] => []
  | x :: xs => insertByKey x (sortByKey xs)

/-- Modelled from the spec: compute each record's extraction result in
input order, stopping at the first extraction failure (spec §4.2
step 1; a failing `assert` aborts the selection call). -/
def extractAll (f : LibraryFilter) : List Library → Except String (List (Library × List String))
  | [] => Except.ok []
  | r :: rest =>
    match f.extraction_func r with
    | Except.error e => Except.error e
    | Except.ok ps =>
      match extractAll f rest with
      | Except.error e => Except.error e
      | Except.ok others => Except.ok ((r, ps) :: others)

/-- Modelled from the spec: the Selection Engine operation
`select(descriptor, records)` (spec §4.2): qualification, extraction,
dropping empty extraction results, stable sort by the record-derived
key when an `order` rule exists, flattening, then the post-selection
validators in sequence. -/
def select (f : LibraryFilter) (records : List Library) : Except String (List String) :=
  match extractAll f (records.filter f.filter_func) with
  | Except.error e => Except.error e
  | Except.ok extractions =>
    let contributing := extractions.filter (fun p => !p.2.isEmpty)
    let flattened :=
      match f.sort_func with
      | some key => ((sortByKey (contributing.map (fun p => (key p.1, p.2)))).map (fun q => q.2)).flatten
      | none => (contributing.map (fun p => p.2)).flatten
    f.extra_post_filter_funcs.foldlM (fun acc v => v acc) flattened

/-! ### Technology cache and tarball extraction (hammer_tech.py)

The filesystem is modelled as the set of existing directories, and the
two external `subprocess.check_call` invocations (tar, chmod) are
modelled as a trace of calls together with an environment-supplied exit
code for each call. -/

/-- A tarball entry of the technology configuration (`path`,
`base_var`). -/
structure Tarball where
  path : String
  base_var : String
deriving DecidableEq, Repr

/-- The filesystem state visible to `extract_tarballs`: the set of
existing directories. -/
structure FS where
  dirs : List String
deriving DecidableEq, Repr

/-- An external process invocation made by `extract_tarballs`: either
`tar -xf tarball_path -C target_path` or `chmod u+rwX -R target_path`. -/
inductive ExtCall where
  | tar (tarball_path target_path : String)
  | chmod (target_path : String)
deriving DecidableEq, Repr

/-- The target directory an external call acts on. -/
def ExtCall.target : ExtCall → String
  | ExtCall.tar _ t => t
  | ExtCall.chmod t => t

/-- Outcome of one `extract_tarballs` run: the final filesystem, the
trace of external invocations in order, and normal return or the
propagated exception. -/
structure RunResult where
  fs : FS
  calls : List ExtCall
  result : Except String Unit

/-- `HammerTechnology` (hammer_tech.py): `_cachedir` and `_database`
are attributes that may be unset (`none`); `tarballs` stands for
`config.tarballs`. -/
structure HammerTechnology where
  name : String := ""
  path : String := ""
  tarballs : List Tarball := []
  cachedir : Option String := none
  database : Option (String → String) := none

/-- `os.path.flatten` for the relative second arguments used here. -/
def pathJoin (a b : String) : String :=
  a ++ "/" ++ b

/-- The `cache_dir` property getter: raises when `_cachedir` was never
set. -/
def HammerTechnology.cache_dir (t : HammerTechnology) : Except String String :=
  match t.cachedir with
  | some d => Except.ok d
  | none => Except.error "Internal error: cache dir location not set by hammer-vlsi"

/-- `get_setting`: raises when no database was set, otherwise looks the
key up in the database. -/
def HammerTechnology.get_setting (t : HammerTechnology) (key : String) : Except String String :=
  match t.database with
  | some db => Except.ok (db key)
  | none => Except.error "Internal error: no database set by hammer-vlsi"

/-- `extracted_tarballs_dir`: `os.path.flatten(self.cache_dir, "extracted")`. -/
def HammerTechnology.extracted_tarballs_dir (t : HammerTechnology) : Except String String :=
  match t.cache_dir with
  | Except.ok d => Except.ok (pathJoin d "extracted")
  | Except.error e => Except.error e

/-- `prepend_tarball_dir`: `os.path.flatten(self.extracted_tarballs_dir, path)`. -/
def HammerTechnology.prepend_tarball_dir (t : HammerTechnology) (p : String) : Except String String :=
  match t.extracted_tarballs_dir with
  | Except.ok d => Except.ok (pathJoin d p)
  | Except.error e => Except.error e

/-- The loop of `extract_tarballs`: for each tarball compute
`target_path` (reading the `extracted_tarballs_dir` property) and
`tarball_path` (via `get_setting`); skip when `target_path` is already
a directory; otherwise `os.makedirs(target_path)`, then
`subprocess.check_call` of tar and of chmod, each raising on a
non-zero exit code supplied by `exit`. -/
def HammerTechnology.extractLoop (t : HammerTechnology) (exit : ExtCall → Nat) :
    List Tarball → FS → RunResult
  | [], fs => ⟨fs, [], Except.ok ()⟩
  | tb :: rest, fs =>
    match t.extracted_tarballs_dir with
    | Except.error e => ⟨fs, [], Except.error e⟩
    | Except.ok edir =>
      match t.get_setting tb.base_var with
      | Except.error e => ⟨fs, [], Except.error e⟩
      | Except.ok base =>
        let target_path := pathJoin edir tb.path
        let tarball_path := pathJoin base tb.path
        if fs.dirs.contains target_path then
          t.extractLoop exit rest fs
        else
          let fs' : FS := ⟨target_path :: fs.dirs⟩
          let c1 := ExtCall.tar tarball_path target_path
          if exit c1 ≠ 0 then
            ⟨fs', [c1],
             Except.error ("Command tar -xf " ++ tarball_path ++ " -C " ++ target_path ++
               " returned non-zero exit status")⟩
          else
            let c2 := ExtCall.chmod target_path
            if exit c2 ≠ 0 then
              ⟨fs', [c1, c2],
               Except.error ("Command chmod u+rwX -R " ++ target_path ++
                 " returned non-zero exit status")⟩
            else
              let r := t.extractLoop exit rest fs'
              ⟨r.fs, c1 :: c2 :: r.calls, r.result⟩

/-- `extract_tarballs` (hammer_tech.py): run the extraction loop over
`config.tarballs`. -/
def HammerTechnology.extract_tarballs (t : HammerTechnology) (exit : ExtCall → Nat)
    (fs : FS) : RunResult :=
  t.extractLoop exit t.tarballs fs

/-! ### Helper definitions and lemmas -/

/-- A record is tagged as the technology type: its provides list exists
and contains an entry whose lib_type is "technology" (the wording of
the physical-layout ordering rule). -/
def providesTechnology (lib : Library) : Bool :=
  match lib.provides with
  | some ps => ps.any (fun p => p.lib_type == some "technology")
  | none => false

theorem lef_sort_loop_eq (ps : List ProvideEntry) :
    lef_sort_loop ps =
      if ps.any (fun p => p.lib_type == some "technology") then 0 else 100 := by
  induction ps with
  | nil => simp [lef_sort_loop]
  | cons p rest ih =>
    by_cases h : p.lib_type = some "technology" <;>
      simp [lef_sort_loop, h, ih]

theorem lef_sort_func_eq (lib : Library) :
    lef_sort_func lib = if providesTechnology lib then 0 else 100 := by
  cases hp : lib.provides with
  | none => simp [lef_sort_func, providesTechnology, hp]
  | some ps => simp [lef_sort_func, providesTechnology, hp, lef_sort_loop_eq]

theorem insertByKey_zero (x : Nat × List String) (l : List (Nat × List String))
    (h : x.1 = 0) : insertByKey x l = x :: l := by
  cases l with
  | nil => rfl
  | cons y ys => simp [insertByKey, h]

theorem insertByKey_append (x : Nat × List String) (A B : List (Nat × List String))
    (hA : ∀ a ∈ A, ¬ x.1 ≤ a.1) (hB : ∀ b ∈ B, x.1 ≤ b.1) :
    insertByKey x (A ++ B) = A ++ x :: B := by
  induction A with
  | nil =>
    cases B with
    | nil => rfl
    | cons b bs => simp [insertByKey, hB b (by simp)]
  | cons a as ih =>
    simp only [List.cons_append, insertByKey, if_neg (hA a (by simp))]
    rw [List.append_eq, ih (fun a' ha' => hA a' (by simp [ha']))]

theorem sortByKey_two_tier (l : List (Nat × List String))
    (h : ∀ x ∈ l, x.1 = 0 ∨ x.1 = 100) :
    sortByKey l =
      l.filter (fun x => x.1 == 0) ++ l.filter (fun x => !(x.1 == 0)) := by
  induction l with
  | nil => rfl
  | cons x xs ih =>
    have ih' := ih (fun y hy => h y (List.mem_cons_of_mem _ hy))
    rcases h x (List.mem_cons_self _ _) with h0 | h100
    · rw [sortByKey, ih', insertByKey_zero x _ h0]
      simp [List.filter, h0]
    · rw [sortByKey, ih']
      rw [insertByKey_append x _ _
        (fun a ha => by
          have := List.of_mem_filter ha
          simp only [beq_iff_eq] at this
          omega)
        (fun b hb => by
          have hb1 := List.of_mem_filter hb
          have hb2 := h b (List.mem_cons_of_mem _ (List.mem_of_mem_filter hb))
          simp only [Bool.not_eq_true', beq_eq_false_iff_ne] at hb1
          omega)]
      simp [List.filter, h100]

theorem lef_filter_extraction : lef_filter.extraction_func = lef_extraction_func := rfl

theorem lef_filter_qualifies : lef_filter.filter_func = lef_filter_func := rfl

theorem lef_filter_order : lef_filter.sort_func = some lef_sort_func := rfl

theorem lef_filter_validators : lef_filter.extra_post_filter_funcs = [] := rfl

theorem extractAll_lef (l : List Library) (h : ∀ r ∈ l, r.lef_file.isSome) :
    extractAll lef_filter l =
      Except.ok (l.map (fun r => (r, r.lef_file.toList))) := by
  induction l with
  | nil => rfl
  | cons r rest ih =>
    cases heq : r.lef_file with
    | none =>
      have := h r (List.mem_cons_self _ _)
      simp [heq] at this
    | some f =>
      have ih' := ih (fun r' hr' => h r' (List.mem_cons_of_mem _ hr'))
      simp [extractAll, lef_filter_extraction, lef_extraction_func, heq, ih']

theorem filter_nonempty_lef (l : List Library) (h : ∀ r ∈ l, r.lef_file.isSome) :
    (l.map (fun r => (r, r.lef_file.toList))).filter (fun p => !p.2.isEmpty) =
      l.map (fun r => (r, r.lef_file.toList)) := by
  induction l with
  | nil => rfl
  | cons r rest ih =>
    cases heq : r.lef_file with
    | none =>
      have := h r (List.mem_cons_self _ _)
      simp [heq] at this
    | some f =>
      have ih' := ih (fun r' hr' => h r' (List.mem_cons_of_mem _ hr'))
      simp [List.filter, heq, ih']

theorem filter_map_comm {α β : Type} (g : α → β) (p : β → Bool) (l : List α) :
    (l.map g).filter p = (l.filter (fun a => p (g a))).map g := by
  induction l with
  | nil => rfl
  | cons a as ih =>
    by_cases h : p (g a) <;> simp [List.filter, h, ih]

theorem filter_and_comm {α : Type} (p q : α → Bool) (l : List α) :
    (l.filter p).filter q = l.filter (fun a => p a && q a) := by
  induction l with
  | nil => rfl
  | cons a as ih =>
    by_cases hp : p a <;> by_cases hq : q a <;> simp [List.filter, hp, hq, ih]

theorem lef_key_zero_iff (r : Library) :
    (lef_sort_func r == 0) = providesTechnology r := by
  rw [lef_sort_func_eq]
  cases providesTechnology r <;> simp

theorem select_of_extractAll (f : LibraryFilter) (records : List Library)
    (m : List (Library × List String))
    (h : extractAll f (records.filter f.filter_func) = Except.ok m) :
    select f records =
      (let contributing := m.filter (fun p => !p.2.isEmpty)
       let flattened :=
         match f.sort_func with
         | some key =>
           ((sortByKey (contributing.map (fun p => (key p.1, p.2)))).map
             (fun q => q.2)).flatten
         | none => (contributing.map (fun p => p.2)).flatten
       f.extra_post_filter_funcs.foldlM (fun acc v => v acc) flattened) := by
  unfold select
  rw [h]

theorem lef_pipeline (q : List Library) :
    ((sortByKey ((q.map (fun r => (r, r.lef_file.toList))).map
        (fun p => (lef_sort_func p.1, p.2)))).map (fun p => p.2)).flatten =
      ((q.filter providesTechnology).map (fun l => l.lef_file.toList)).flatten ++
      ((q.filter (fun l => !providesTechnology l)).map
        (fun l => l.lef_file.toList)).flatten := by
  rw [List.map_map]
  have hkeys : ∀ x ∈ q.map ((fun p : Library × List String => (lef_sort_func p.1, p.2)) ∘
      (fun r => (r, r.lef_file.toList))), x.1 = 0 ∨ x.1 = 100 := by
    intro x hx
    obtain ⟨r, hr, rfl⟩ := List.mem_map.mp hx
    simp only [Function.comp_apply]
    rw [lef_sort_func_eq]
    by_cases h : providesTechnology r <;> simp [h]
  rw [sortByKey_two_tier _ hkeys, List.map_append, List.flatten_append,
    filter_map_comm, filter_map_comm, List.map_map, List.map_map]
  have hp : (fun a => ((((fun p : Library × List String => (lef_sort_func p.1, p.2)) ∘
      (fun r : Library => (r, r.lef_file.toList))) a).1 == 0)) = providesTechnology := by
    funext r
    simp only [Function.comp_apply]
    exact lef_key_zero_iff r
  have hp' : (fun a => !((((fun p : Library × List String => (lef_sort_func p.1, p.2)) ∘
      (fun r : Library => (r, r.lef_file.toList))) a).1 == 0)) =
      (fun l => !providesTechnology l) := by
    funext r
    simp only [Function.comp_apply]
    rw [lef_key_zero_iff r]
  rw [hp, hp']
  rfl

/-- Claim C1: for the LEF physical-layout category, the ordering key
assigns rank 0 to any record whose provides list contains an entry with
lib_type "technology" and rank 100 to every other record; consequently
the selection of `lef_filter` over any collection of records yields all
technology-tagged records' paths first, then all other qualifying
records' paths, source order preserved within each tier. -/
theorem claim_C1 :
    (∀ lib : Library, lef_sort_func lib = if providesTechnology lib then 0 else 100) ∧
    (∀ libs : List Library,
      select lef_filter libs = Except.ok (
        ((libs.filter (fun l => lef_filter_func l && providesTechnology l)).map
          (fun l => l.lef_file.toList)).flatten ++
        ((libs.filter (fun l => lef_filter_func l && !providesTechnology l)).map
          (fun l => l.lef_file.toList)).flatten)) := by
  refine ⟨lef_sort_func_eq, ?_⟩
  intro libs
  have hq : ∀ r ∈ libs.filter lef_filter.filter_func, r.lef_file.isSome := by
    intro r hr
    have h : lef_filter.filter_func r = true := List.of_mem_filter hr
    exact h
  rw [select_of_extractAll lef_filter libs _ (extractAll_lef _ hq)]
  simp only [lef_filter_order, lef_filter_validators]
  rw [filter_nonempty_lef _ hq, lef_pipeline]
  rw [show (libs.filter lef_filter.filter_func).filter providesTechnology =
        libs.filter (fun l => lef_filter_func l && providesTechnology l) from
      filter_and_comm lef_filter_func providesTechnology libs,
    show (libs.filter lef_filter.filter_func).filter (fun l => !providesTechnology l) =
        libs.filter (fun l => lef_filter_func l && !providesTechnology l) from
      filter_and_comm lef_filter_func (fun l => !providesTechnology l) libs]
  rfl

/-- Claim C2: the ECSM-aware liberty extraction function returns the
ECSM path whenever set (regardless of the other two), otherwise the CCS
path if set, otherwise the NLDM path if set, and the empty list when
none of the three is set. -/
theorem claim_C2 (lib : Library) :
    (∀ e, lib.ecsm_liberty_file = some e →
      timing_lib_with_ecsm_filter.extraction_func lib = Except.ok [e]) ∧
    (lib.ecsm_liberty_file = none → ∀ c, lib.ccs_liberty_file = some c →
      timing_lib_with_ecsm_filter.extraction_func lib = Except.ok [c]) ∧
    (lib.ecsm_liberty_file = none → lib.ccs_liberty_file = none →
      ∀ n, lib.nldm_liberty_file = some n →
      timing_lib_with_ecsm_filter.extraction_func lib = Except.ok [n]) ∧
    (lib.ecsm_liberty_file = none → lib.ccs_liberty_file = none →
      lib.nldm_liberty_file = none →
      timing_lib_with_ecsm_filter.extraction_func lib = Except.ok []) := by
  refine ⟨?_, ?_, ?_, ?_⟩
  · intro e he
    simp [timing_lib_with_ecsm_filter, timing_lib_with_ecsm_extraction_func, he]
  · intro he c hc
    simp [timing_lib_with_ecsm_filter, timing_lib_with_ecsm_extraction_func, he, hc]
  · intro he hc n hn
    simp [timing_lib_with_ecsm_filter, timing_lib_with_ecsm_extraction_func, he, hc, hn]
  · intro he hc hn
    simp [timing_lib_with_ecsm_filter, timing_lib_with_ecsm_extraction_func, he, hc, hn]

/-- Witness for claim C2 at a record with all three formats set: the
ECSM path is chosen. -/
theorem claim_C2_witness :
    timing_lib_with_ecsm_filter.extraction_func
      { ecsm_liberty_file := some "e.lib", ccs_liberty_file := some "c.lib",
        nldm_liberty_file := some "n.lib" } = Except.ok ["e.lib"] :=
  (claim_C2 _).1 "e.lib" rfl

/-- Claim C3: for both two-format preference filters (timing database:
CCS .db over NLDM .db; liberty: CCS .lib over NLDM .lib), a record with
only the lower-priority format yields exactly that path and a record
with both yields only the higher-priority path. -/
theorem claim_C3 (lib : Library) :
    (lib.ccs_library_file = none → ∀ n, lib.nldm_library_file = some n →
      timing_db_filter.extraction_func lib = Except.ok [n]) ∧
    (∀ c n, lib.ccs_library_file = some c → lib.nldm_library_file = some n →
      timing_db_filter.extraction_func lib = Except.ok [c]) ∧
    (lib.ccs_liberty_file = none → ∀ n, lib.nldm_liberty_file = some n →
      timing_lib_filter.extraction_func lib = Except.ok [n]) ∧
    (∀ c n, lib.ccs_liberty_file = some c → lib.nldm_liberty_file = some n →
      timing_lib_filter.extraction_func lib = Except.ok [c]) := by
  refine ⟨?_, ?_, ?_, ?_⟩
  · intro hc n hn
    simp [timing_db_filter, timing_db_extraction_func, hc, hn]
  · intro c n hc hn
    simp [timing_db_filter, timing_db_extraction_func, hc, hn]
  · intro hc n hn
    simp [timing_lib_filter, timing_lib_extraction_func, hc, hn]
  · intro c n hc hn
    simp [timing_lib_filter, timing_lib_extraction_func, hc, hn]

/-- Witness for claim C3: with both .db formats set, the CCS .db path
is selected. -/
theorem claim_C3_witness :
    timing_db_filter.extraction_func
      { ccs_library_file := some "c.db", nldm_library_file := some "n.db" } =
      Except.ok ["c.db"] :=
  (claim_C3 _).2.1 "c.db" "n.db" rfl rfl

/-- Claim C4: the milkyway-techfile category's post-selection validator
rejects an empty path list with an error naming the category and passes
any non-empty list through unchanged. -/
theorem claim_C4 :
    milkyway_techfile_filter.extra_post_filter_funcs =
      [create_nonempty_check "Milkyway techfile"] ∧
    create_nonempty_check "Milkyway techfile" [] =
      Except.error "Must have at least one Milkyway techfile" ∧
    ∀ (x : String) (xs : List String),
      create_nonempty_check "Milkyway techfile" (x :: xs) = Except.ok (x :: xs) := by
  refine ⟨rfl, rfl, ?_⟩
  intro x xs
  simp [create_nonempty_check]

/-- Witness for claim C4: the validator passes a one-element list
through unchanged. -/
theorem claim_C4_witness :
    create_nonempty_check "Milkyway techfile" ["tf"] = Except.ok ["tf"] :=
  claim_C4.2.2 "tf" []

/-- Claim C8: the TLU+ max/min capacitance filters return the empty
list when the nested record or the relevant sub-field is absent, and
the one-element list with that sub-field's path otherwise. -/
theorem claim_C8 (lib : Library) :
    (lib.tluplus_files = none →
      tlu_max_cap_filter.extraction_func lib = Except.ok [] ∧
      tlu_min_cap_filter.extraction_func lib = Except.ok []) ∧
    (∀ t, lib.tluplus_files = some t →
      (t.max_cap = none → tlu_max_cap_filter.extraction_func lib = Except.ok []) ∧
      (∀ m, t.max_cap = some m →
        tlu_max_cap_filter.extraction_func lib = Except.ok [m]) ∧
      (t.min_cap = none → tlu_min_cap_filter.extraction_func lib = Except.ok []) ∧
      (∀ m, t.min_cap = some m →
        tlu_min_cap_filter.extraction_func lib = Except.ok [m])) := by
  constructor
  · intro h
    constructor
    · simp [tlu_max_cap_filter, select_tlu_max_cap, h]
    · simp [tlu_min_cap_filter, select_tlu_min_cap, h]
  · intro t ht
    refine ⟨?_, ?_, ?_, ?_⟩
    · intro h
      simp [tlu_max_cap_filter, select_tlu_max_cap, ht, h]
    · intro m hm
      simp [tlu_max_cap_filter, select_tlu_max_cap, ht, hm]
    · intro h
      simp [tlu_min_cap_filter, select_tlu_min_cap, ht, h]
    · intro m hm
      simp [tlu_min_cap_filter, select_tlu_min_cap, ht, hm]

/-- Witness for claim C8: a present nested record with max_cap set
yields that one path. -/
theorem claim_C8_witness :
    tlu_max_cap_filter.extraction_func
      { tluplus_files := some { max_cap := some "max.tlup" } } =
      Except.ok ["max.tlup"] :=
  ((claim_C8 _).2 _ rfl).2.1 "max.tlup" rfl

/-- Claim C9: for the LEF, GDS and SPICE filters, whenever the
qualification predicate holds the asserting extraction function cannot
fail and returns exactly one path. -/
theorem claim_C9 (lib : Library) :
    (lef_filter.filter_func lib = true →
      ∃ f, lib.lef_file = some f ∧ lef_filter.extraction_func lib = Except.ok [f]) ∧
    (gds_filter.filter_func lib = true →
      ∃ f, lib.gds_file = some f ∧ gds_filter.extraction_func lib = Except.ok [f]) ∧
    (spice_filter.filter_func lib = true →
      ∃ f, lib.spice_file = some f ∧ spice_filter.extraction_func lib = Except.ok [f]) := by
  refine ⟨?_, ?_, ?_⟩
  · intro h
    cases heq : lib.lef_file with
    | none =>
      rw [show lef_filter.filter_func = lef_filter_func from rfl, lef_filter_func, heq] at h
      simp at h
    | some f =>
      exact ⟨f, rfl, by simp [lef_filter_extraction, lef_extraction_func, heq]⟩
  · intro h
    cases heq : lib.gds_file with
    | none =>
      rw [show gds_filter.filter_func = gds_filter_func from rfl, gds_filter_func, heq] at h
      simp at h
    | some f =>
      exact ⟨f, rfl, by simp [gds_filter, gds_extraction_func, heq]⟩
  · intro h
    cases heq : lib.spice_file with
    | none =>
      rw [show spice_filter.filter_func = spice_filter_func from rfl, spice_filter_func, heq] at h
      simp at h
    | some f =>
      exact ⟨f, rfl, by simp [spice_filter, spice_extraction_func, heq]⟩

/-- Witness for claim C9: a qualifying record with a LEF file extracts
exactly that one path. -/
theorem claim_C9_witness :
    ∃ f, ({ lef_file := some "t.lef" } : Library).lef_file = some f ∧
      lef_filter.extraction_func { lef_file := some "t.lef" } = Except.ok [f] :=
  (claim_C9 _).1 rfl

/-- Claim C5: the deprecated `liberty_lib_filter` is identical to
`timing_lib_filter` as an Artifact Descriptor (same extraction results
on every record, same name, description and is_file flag; indeed the
whole descriptor is equal), and accessing the deprecated alias emits
exactly the one non-fatal deprecation warning. -/
theorem claim_C5 :
    liberty_lib_filter.1 = timing_lib_filter ∧
    (∀ lib, liberty_lib_filter.1.extraction_func lib =
      timing_lib_filter.extraction_func lib) ∧
    liberty_lib_filter.1.name = timing_lib_filter.name ∧
    liberty_lib_filter.1.description = timing_lib_filter.description ∧
    liberty_lib_filter.1.is_file = timing_lib_filter.is_file ∧
    (∀ libs, select liberty_lib_filter.1 libs = select timing_lib_filter libs) ∧
    liberty_lib_filter.2 = ["Use timing_lib_filter instead"] := by
  have hfun : liberty_lib_extraction_func = timing_lib_extraction_func := by
    funext lib
    unfold liberty_lib_extraction_func timing_lib_extraction_func
    rfl
  have hfilter : liberty_lib_filter.1 = timing_lib_filter := by
    show LibraryFilter.mk _ _ _ _ liberty_lib_extraction_func _ _ = _
    rw [hfun]
    rfl
  exact ⟨hfilter, fun lib => by rw [hfilter], by rw [hfilter], by rw [hfilter],
    by rw [hfilter], fun libs => by rw [hfilter], rfl⟩

/-- Witness for claim C5 at one concrete record: the deprecated alias
extracts the same CCS path as the current filter. -/
theorem claim_C5_witness :
    liberty_lib_filter.1.extraction_func { ccs_liberty_file := some "c.lib" } =
      timing_lib_filter.extraction_func { ccs_liberty_file := some "c.lib" } :=
  claim_C5.2.1 { ccs_liberty_file := some "c.lib" }

theorem extractLoop_mono (t : HammerTechnology) (exit : ExtCall → Nat) :
    ∀ (tbs : List Tarball) (fs : FS) (d : String),
      d ∈ fs.dirs → d ∈ (t.extractLoop exit tbs fs).fs.dirs := by
  intro tbs
  induction tbs with
  | nil =>
    intro fs d hd
    simpa [HammerTechnology.extractLoop] using hd
  | cons tb rest ih =>
    intro fs d hd
    cases hdir : t.extracted_tarballs_dir with
    | error e => simp [HammerTechnology.extractLoop, hdir, hd]
    | ok edir =>
      cases hset : t.get_setting tb.base_var with
      | error e => simp [HammerTechnology.extractLoop, hdir, hset, hd]
      | ok base =>
        by_cases hc : fs.dirs.contains (pathJoin edir tb.path)
        · simp only [HammerTechnology.extractLoop, hdir, hset, if_pos hc]
          exact ih fs d hd
        · have hc' : pathJoin edir tb.path ∉ fs.dirs := by simpa using hc
          by_cases h1 : exit (ExtCall.tar (pathJoin base tb.path) (pathJoin edir tb.path)) = 0
          · by_cases h2 : exit (ExtCall.chmod (pathJoin edir tb.path)) = 0
            · have step : d ∈ (FS.mk (pathJoin edir tb.path :: fs.dirs)).dirs :=
                List.mem_cons_of_mem _ hd
              have hrec := ih (FS.mk (pathJoin edir tb.path :: fs.dirs)) d step
              simp [HammerTechnology.extractLoop, hdir, hset, h1, h2, hc', hrec]
            · simp [HammerTechnology.extractLoop, hdir, hset, hc', h1, h2, List.mem_cons_of_mem _ hd]
          · simp [HammerTechnology.extractLoop, hdir, hset, hc', h1, List.mem_cons_of_mem _ hd]

theorem extractLoop_avoids_existing (t : HammerTechnology) (exit : ExtCall → Nat) :
    ∀ (tbs : List Tarball) (fs : FS) (p : String), p ∈ fs.dirs →
      ∀ c ∈ (t.extractLoop exit tbs fs).calls, c.target ≠ p := by
  intro tbs
  induction tbs with
  | nil =>
    intro fs p hp c hc
    simp [HammerTechnology.extractLoop] at hc
  | cons tb rest ih =>
    intro fs p hp c hc
    cases hdir : t.extracted_tarballs_dir with
    | error e => simp [HammerTechnology.extractLoop, hdir] at hc
    | ok edir =>
      cases hset : t.get_setting tb.base_var with
      | error e => simp [HammerTechnology.extractLoop, hdir, hset] at hc
      | ok base =>
        by_cases hcont : pathJoin edir tb.path ∈ fs.dirs
        · have hcont' : fs.dirs.contains (pathJoin edir tb.path) = true := by
            simpa [List.elem_iff] using hcont
          simp only [HammerTechnology.extractLoop, hdir, hset, hcont', if_pos] at hc
          exact ih fs p hp c hc
        · have htgt : pathJoin edir tb.path ≠ p := fun h => hcont (h ▸ hp)
          by_cases h1 : exit (ExtCall.tar (pathJoin base tb.path) (pathJoin edir tb.path)) = 0
          · by_cases h2 : exit (ExtCall.chmod (pathJoin edir tb.path)) = 0
            · simp [HammerTechnology.extractLoop, hdir, hset, hcont, h1, h2] at hc
              rcases hc with hc | hc | hc
              · rw [hc]
                exact htgt
              · rw [hc]
                exact htgt
              · exact ih (FS.mk (pathJoin edir tb.path :: fs.dirs)) p
                  (List.mem_cons_of_mem _ hp) c hc
            · simp [HammerTechnology.extractLoop, hdir, hset, hcont, h1, h2] at hc
              rcases hc with hc | hc <;> (rw [hc]; exact htgt)
          · simp [HammerTechnology.extractLoop, hdir, hset, hcont, h1] at hc
            rw [hc]
            exact htgt

theorem extractLoop_extracted_present (t : HammerTechnology) (exit : ExtCall → Nat) :
    ∀ (tbs : List Tarball) (fs : FS),
      (t.extractLoop exit tbs fs).result = Except.ok () →
      ∀ tb ∈ tbs, ∀ edir, t.extracted_tarballs_dir = Except.ok edir →
        pathJoin edir tb.path ∈ (t.extractLoop exit tbs fs).fs.dirs := by
  intro tbs
  induction tbs with
  | nil =>
    intro fs _ tb htb
    simp at htb
  | cons tb0 rest ih =>
    intro fs hres tb htb edir hdir
    cases hdir' : t.extracted_tarballs_dir with
    | error e =>
      rw [hdir'] at hdir
      exact absurd hdir (by simp)
    | ok edir' =>
      have hedir : edir' = edir := by
        rw [hdir'] at hdir
        exact Except.ok.inj hdir
      subst hedir
      cases hset : t.get_setting tb0.base_var with
      | error e =>
        simp [HammerTechnology.extractLoop, hdir', hset] at hres
      | ok base =>
        by_cases hcont : pathJoin edir' tb0.path ∈ fs.dirs
        · rw [show t.extractLoop exit (tb0 :: rest) fs = t.extractLoop exit rest fs by
            simp [HammerTechnology.extractLoop, hdir', hset, hcont]]
          rw [show t.extractLoop exit (tb0 :: rest) fs = t.extractLoop exit rest fs by
            simp [HammerTechnology.extractLoop, hdir', hset, hcont]] at hres
          rcases List.mem_cons.mp htb with heq | hmem
          · subst heq
            exact extractLoop_mono t exit rest fs _ hcont
          · exact ih fs hres tb hmem edir' hdir'
        · by_cases h1 : exit (ExtCall.tar (pathJoin base tb0.path) (pathJoin edir' tb0.path)) = 0
          · by_cases h2 : exit (ExtCall.chmod (pathJoin edir' tb0.path)) = 0
            · have hloop : t.extractLoop exit (tb0 :: rest) fs =
                  ⟨(t.extractLoop exit rest (FS.mk (pathJoin edir' tb0.path :: fs.dirs))).fs,
                   ExtCall.tar (pathJoin base tb0.path) (pathJoin edir' tb0.path) ::
                     ExtCall.chmod (pathJoin edir' tb0.path) ::
                     (t.extractLoop exit rest (FS.mk (pathJoin edir' tb0.path :: fs.dirs))).calls,
                   (t.extractLoop exit rest (FS.mk (pathJoin edir' tb0.path :: fs.dirs))).result⟩ := by
                simp [HammerTechnology.extractLoop, hdir', hset, hcont, h1, h2]
              rw [hloop] at hres ⊢
              rcases List.mem_cons.mp htb with heq | hmem
              · subst heq
                exact extractLoop_mono t exit rest _ _ (List.mem_cons_self _ _)
              · exact ih _ hres tb hmem edir' hdir'
            · simp [HammerTechnology.extractLoop, hdir', hset, hcont, h1, h2] at hres
          · simp [HammerTechnology.extractLoop, hdir', hset, hcont, h1] at hres

theorem extractLoop_noop_when_present (t : HammerTechnology) (exit : ExtCall → Nat) :
    ∀ (tbs : List Tarball) (fs : FS),
      (∀ tb ∈ tbs, ∀ edir, t.extracted_tarballs_dir = Except.ok edir →
        pathJoin edir tb.path ∈ fs.dirs) →
      (t.extractLoop exit tbs fs).calls = [] := by
  intro tbs
  induction tbs with
  | nil =>
    intro fs _
    simp [HammerTechnology.extractLoop]
  | cons tb0 rest ih =>
    intro fs h
    cases hdir : t.extracted_tarballs_dir with
    | error e => simp [HammerTechnology.extractLoop, hdir]
    | ok edir =>
      cases hset : t.get_setting tb0.base_var with
      | error e => simp [HammerTechnology.extractLoop, hdir, hset]
      | ok base =>
        have hcont : pathJoin edir tb0.path ∈ fs.dirs :=
          h tb0 (List.mem_cons_self _ _) edir hdir
        rw [show t.extractLoop exit (tb0 :: rest) fs = t.extractLoop exit rest fs by
          simp [HammerTechnology.extractLoop, hdir, hset, hcont]]
        exact ih fs (fun tb htb => h tb (List.mem_cons_of_mem _ htb))

/-- Claim C6: tarball extraction is idempotent: a target directory that
already exists is never the target of any tar or chmod invocation, and
a second `extract_tarballs` call right after a successful first call
invokes no external command at all. -/
theorem claim_C6 (t : HammerTechnology) (e1 e2 : ExtCall → Nat) (fs : FS) (p : String) :
    (p ∈ fs.dirs → ∀ c ∈ (t.extract_tarballs e1 fs).calls, c.target ≠ p) ∧
    ((t.extract_tarballs e1 fs).result = Except.ok () →
      (t.extract_tarballs e2 (t.extract_tarballs e1 fs).fs).calls = []) := by
  constructor
  · intro hp
    exact extractLoop_avoids_existing t e1 t.tarballs fs p hp
  · intro hok
    exact extractLoop_noop_when_present t e2 t.tarballs (t.extract_tarballs e1 fs).fs
      (fun tb htb edir hdir =>
        extractLoop_extracted_present t e1 t.tarballs fs hok tb htb edir hdir)

/-- Concrete technology used by the C6 witness: one tarball, cache dir
and settings database set. -/
def exampleTech : HammerTechnology where
  tarballs := [{ path := "pdk.tar", base_var := "technology.example.base" }]
  cachedir := some "/cache"
  database := some (fun _ => "/base")

/-- Witness for claim C6 at `exampleTech`: with the target directory
already present no call targets it, and the run after a successful
fresh run performs no external call. -/
theorem claim_C6_witness :
    (∀ c ∈ (exampleTech.extract_tarballs (fun _ => 0)
        ⟨["/cache/extracted/pdk.tar"]⟩).calls,
      c.target ≠ "/cache/extracted/pdk.tar") ∧
    (exampleTech.extract_tarballs (fun _ => 0)
      (exampleTech.extract_tarballs (fun _ => 0) ⟨[]⟩).fs).calls = [] :=
  ⟨(claim_C6 exampleTech (fun _ => 0) (fun _ => 0)
      ⟨["/cache/extracted/pdk.tar"]⟩ "/cache/extracted/pdk.tar").1
    (by simp),
   (claim_C6 exampleTech (fun _ => 0) (fun _ => 0) ⟨[]⟩ "").2 rfl⟩

/-- Exit-code environment in which the tar invocation fails. -/
def tarFails : ExtCall → Nat
  | ExtCall.tar _ _ => 1
  | ExtCall.chmod _ => 0

/-- Counterexample to claim C7: running `extract_tarballs` on
`exampleTech` from an empty filesystem with a failing tar command does
propagate a fatal error, but `os.makedirs(target_path)` ran before tar,
so the target directory IS left behind — the very state the claim says
is not left behind, and the state a retry treats as "already
extracted". -/
theorem claim_C7_counterexample :
    (exampleTech.extract_tarballs tarFails ⟨[]⟩).result =
      Except.error ("Command tar -xf /base/pdk.tar -C /cache/extracted/pdk.tar" ++
        " returned non-zero exit status") ∧
    "/cache/extracted/pdk.tar" ∈ (exampleTech.extract_tarballs tarFails ⟨[]⟩).fs.dirs := by
  constructor
  · rfl
  · rw [show (exampleTech.extract_tarballs tarFails ⟨[]⟩).fs.dirs =
        ["/cache/extracted/pdk.tar"] from rfl]
    exact List.mem_singleton.mpr rfl

/-- Claim C7 as amended: when the extraction command for an archive
(whose target directory was missing) exits non-zero, the error
propagates fatally, exactly the one tar call was attempted — but the
target directory, created by makedirs before tar ran, is left behind in
the final state, so a retry would treat the archive as already
extracted. -/
theorem claim_C7_amended (t : HammerTechnology) (edir base : String) (tb : Tarball)
    (exit : ExtCall → Nat) (fs : FS)
    (h1 : t.tarballs = [tb])
    (h2 : t.extracted_tarballs_dir = Except.ok edir)
    (h3 : t.get_setting tb.base_var = Except.ok base)
    (h4 : pathJoin edir tb.path ∉ fs.dirs)
    (h5 : exit (ExtCall.tar (pathJoin base tb.path) (pathJoin edir tb.path)) ≠ 0) :
    (t.extract_tarballs exit fs).result =
      Except.error ("Command tar -xf " ++ pathJoin base tb.path ++ " -C " ++
        pathJoin edir tb.path ++ " returned non-zero exit status") ∧
    pathJoin edir tb.path ∈ (t.extract_tarballs exit fs).fs.dirs ∧
    (t.extract_tarballs exit fs).calls =
      [ExtCall.tar (pathJoin base tb.path) (pathJoin edir tb.path)] := by
  unfold HammerTechnology.extract_tarballs
  rw [h1]
  refine ⟨?_, ?_, ?_⟩ <;>
    simp [HammerTechnology.extractLoop, h2, h3, h4, h5]

/-- Witness for the amended claim C7 at the counterexample input. -/
theorem claim_C7_amended_witness :
    (exampleTech.extract_tarballs tarFails ⟨[]⟩).result =
      Except.error ("Command tar -xf /base/pdk.tar -C /cache/extracted/pdk.tar" ++
        " returned non-zero exit status") ∧
    pathJoin "/cache/extracted" "pdk.tar" ∈
      (exampleTech.extract_tarballs tarFails ⟨[]⟩).fs.dirs ∧
    (exampleTech.extract_tarballs tarFails ⟨[]⟩).calls =
      [ExtCall.tar (pathJoin "/base" "pdk.tar") (pathJoin "/cache/extracted" "pdk.tar")] := by
  have h := claim_C7_amended exampleTech "/cache/extracted" "/base"
    { path := "pdk.tar", base_var := "technology.example.base" } tarFails ⟨[]⟩
    rfl rfl rfl (by simp) (by decide)
  exact ⟨h.1, h.2.1, h.2.2⟩

/-- A technology whose cache directory was never set and which declares
no tarballs. -/
def bareTech : HammerTechnology where
  cachedir := none

/-- Counterexample to claim C10: a technology whose cache directory was
never set but whose configuration declares no tarballs — the loop in
`extract_tarballs` never runs, the `cache_dir` property is never read,
and the call returns normally instead of failing. -/
theorem claim_C10_counterexample :
    bareTech.cachedir = none ∧
    (bareTech.extract_tarballs (fun _ => 0) ⟨[]⟩).result = Except.ok () :=
  ⟨rfl, rfl⟩

/-- Claim C10 as amended: reading `cache_dir` before it is set raises
the internal error, and so do `extracted_tarballs_dir` and
`prepend_tarball_dir`; `extract_tarballs` fails with that same error
whenever at least one tarball is declared (with an empty tarball list
it returns without ever reading the cache dir). -/
theorem claim_C10_amended (t : HammerTechnology) (h : t.cachedir = none) (p : String)
    (tb : Tarball) (rest : List Tarball) (exit : ExtCall → Nat) (fs : FS) :
    t.cache_dir =
      Except.error "Internal error: cache dir location not set by hammer-vlsi" ∧
    t.extracted_tarballs_dir =
      Except.error "Internal error: cache dir location not set by hammer-vlsi" ∧
    t.prepend_tarball_dir p =
      Except.error "Internal error: cache dir location not set by hammer-vlsi" ∧
    (t.tarballs = tb :: rest →
      (t.extract_tarballs exit fs).result =
        Except.error "Internal error: cache dir location not set by hammer-vlsi") := by
  have hc : t.cache_dir =
      Except.error "Internal error: cache dir location not set by hammer-vlsi" := by
    simp [HammerTechnology.cache_dir, h]
  have he : t.extracted_tarballs_dir =
      Except.error "Internal error: cache dir location not set by hammer-vlsi" := by
    simp [HammerTechnology.extracted_tarballs_dir, hc]
  refine ⟨hc, he, ?_, ?_⟩
  · simp [HammerTechnology.prepend_tarball_dir, he]
  · intro htb
    unfold HammerTechnology.extract_tarballs
    rw [htb]
    simp [HammerTechnology.extractLoop, he]

/-- A technology with an unset cache directory but one declared
tarball. -/
def bareTechWithTarball : HammerTechnology where
  cachedir := none
  tarballs := [{ path := "pdk.tar", base_var := "technology.example.base" }]

/-- Witness for the amended claim C10 at a concrete technology with one
tarball and no cache dir set. -/
theorem claim_C10_amended_witness :
    bareTechWithTarball.cache_dir =
      Except.error "Internal error: cache dir location not set by hammer-vlsi" ∧
    (bareTechWithTarball.extract_tarballs (fun _ => 0) ⟨[]⟩).result =
      Except.error "Internal error: cache dir location not set by hammer-vlsi" := by
  have h := claim_C10_amended bareTechWithTarball rfl "x"
    { path := "pdk.tar", base_var := "technology.example.base" } [] (fun _ => 0) ⟨[]⟩
  exact ⟨h.1, h.2.2.2 rfl⟩

/-- Witness for claim C1 at the spec's three-record example: only the
second record is technology-tagged, and its path comes first, followed
by the first and third records' paths in source order. -/
theorem claim_C1_witness :
    select lef_filter
      [{ lef_file := some "a.lef" },
       { lef_file := some "b.lef",
         provides := some [{ lib_type := some "technology" }] },
       { lef_file := some "c.lef" }] = Except.ok ["b.lef", "a.lef", "c.lef"] :=
  (claim_C1.2 [{ lef_file := some "a.lef" },
    { lef_file := some "b.lef", provides := some [{ lib_type := some "technology" }] },
    { lef_file := some "c.lef" }]).trans (by rfl)
